import Mathlib

/-
Verification of the Enterprise AI assistant core against its specification.

The Python sources are shallowly embedded: pure functions become Lean
functions, dict lookups become total functions with the dict's default,
external collaborators (FAISS index, HTTP transport, LLM providers, clock,
uuid) become explicit oracle inputs, and raised exceptions become
`Except` errors.  Python `str` primitives (`split`, `lower`, `join`,
slicing, `in`) are modelled at the character-list level; `float` scores
and millisecond timings are modelled as rationals.
-/

/- ========================= Python string primitives ===================== -/

/-- Model of Python `str.lower()` (ASCII case folding, which covers every
string the permission tables and department tags use). -/
def pyLower (s : String) : String := String.mk (s.data.map Char.toLower)

/-- Helper for `pySplit`: walk the characters, accumulating the current word
(in reverse) and emitting it when whitespace or the end is reached. -/
def splitWordsAux : List Char → List Char → List String
  | [], acc => if acc.isEmpty then [] else [String.mk acc.reverse]
  | c :: cs, acc =>
    if c.isWhitespace then
      if acc.isEmpty then splitWordsAux cs []
      else String.mk acc.reverse :: splitWordsAux cs []
    else splitWordsAux cs (c :: acc)

/-- Model of Python `str.split()` with no argument: split on runs of
whitespace, discarding empty pieces. -/
def pySplit (text : String) : List String := splitWordsAux text.data []

/-- Model of Python `sep.join(parts)`. -/
def pyJoin (sep : String) : List String → String
  | [] => ""
  | [a] => a
  | a :: rest => a ++ sep ++ pyJoin sep rest

/-- Model of Python `s[:n]` on strings. -/
def pyTake (s : String) (n : Nat) : String := String.mk (s.data.take n)

/-- Model of Python `l[-n:]` on lists: the last `n` elements (all of them
when the list is shorter). -/
def pyTakeLast (l : List α) (n : Nat) : List α := l.drop (l.length - n)

/-- Model of Python `str.capitalize()`: first character upper-cased, the
rest lower-cased. -/
def strCapitalize (s : String) : String :=
  match s.data with
  | [] => ""
  | c :: cs => String.mk (c.toUpper :: cs.map Char.toLower)

/-- Substring search on character lists (for Python `needle in hay`). -/
def subSearch (needle : List Char) : List Char → Bool
  | [] => needle.isEmpty
  | c :: rest => needle.isPrefixOf (c :: rest) || subSearch needle rest

/-- Model of Python `needle in hay` on strings. -/
def pyIn (needle hay : String) : Bool := subSearch needle.data hay.data

/- ==================== backend/app/services/permission_service.py ======== -/

/-- The `ROLE_TOOL_PERMISSIONS` dict as a total lookup with the
`dict.get(role, set())` default of the empty set. -/
def ROLE_TOOL_PERMISSIONS (role : String) : List String :=
  if role = "admin" then
    ["search_documents", "query_database", "search_github", "search_jira",
     "get_github_file", "get_jira_ticket"]
  else if role = "manager" then
    ["search_documents", "query_database", "search_jira", "get_jira_ticket"]
  else if role = "employee" then
    ["search_documents"]
  else []

/-- `PermissionService.can_access_tool`. -/
def can_access_tool (role tool_name : String) : Bool :=
  (ROLE_TOOL_PERMISSIONS role).contains tool_name

/-- The `DEPARTMENT_DOCUMENT_ACCESS` dict as a total lookup with the
`dict.get(dept, {"public"})` default used by `can_access_department_docs`. -/
def DEPARTMENT_DOCUMENT_ACCESS (dept : String) : List String :=
  if dept = "engineering" then ["engineering", "general", "public"]
  else if dept = "hr" then ["hr", "general", "public"]
  else if dept = "finance" then ["finance", "general", "public"]
  else if dept = "sales" then ["sales", "general", "public"]
  else if dept = "admin" then ["*"]
  else ["public"]

/-- `PermissionService.can_access_department_docs`. -/
def can_access_department_docs
    (user_department user_role document_department : String) : Bool :=
  if user_role = "admin" then true
  else
    let allowed_depts := DEPARTMENT_DOCUMENT_ACCESS (pyLower user_department)
    if allowed_depts.contains "*" then true
    else allowed_depts.contains (pyLower document_department)

/-- The department-visibility predicate exactly as claim C2 words it (spec
side, for comparison with the source function): true iff the requester is
an admin, or the resolved allow-set contains the wildcard, or the
document's department equals the requester's department, or it is
"public"/"general". -/
def claimedDeptVisibility
    (user_department user_role document_department : String) : Bool :=
  if user_role = "admin" then true
  else
    let allowed_depts := DEPARTMENT_DOCUMENT_ACCESS (pyLower user_department)
    allowed_depts.contains "*" ||
      pyLower document_department == pyLower user_department ||
      pyLower document_department == "public" ||
      pyLower document_department == "general"

/- ========================= vector-store/ingest.py ======================= -/

/-- The `while start < len(words)` loop of `chunk_text`, with explicit fuel.
`none` marks fuel exhaustion; the termination theorem shows the fuel
supplied by `chunk_text` is never exhausted when `overlap < chunk_size`. -/
def chunkLoop (words : List String) (chunk_size overlap : Nat) :
    Nat → Nat → Option (List String)
  | _, 0 => none
  | start, fuel + 1 =>
    if start < words.length then
      match chunkLoop words chunk_size overlap (start + (chunk_size - overlap)) fuel with
      | none => none
      | some rest => some (pyJoin " " ((words.drop start).take chunk_size) :: rest)
    else some []

/-- `chunk_text` from `vector-store/ingest.py` (defaults 500 and 50 at the
call sites). -/
def chunk_text (text : String) (chunk_size overlap : Nat) : Option (List String) :=
  let words := pySplit text
  if words.length ≤ chunk_size then some [text]
  else chunkLoop words chunk_size overlap 0 (words.length + 1)

/- =================== backend/app/services/rag_service.py ================ -/

/-- A row of the `documents` table as joined back by `semantic_search`. -/
structure Doc where
  content : String
  title : String
  department : String
  source : String

/-- One entry of the list returned by `RAGService.semantic_search`. -/
structure SearchHit where
  content : String
  title : String
  department : String
  source : String
  score : ℚ
  index : Int

/-- `found_indices`: the non-negative vector identifiers returned by the
index search, in index order. -/
def found_indices (hits : List (ℚ × Int)) : List Int :=
  (hits.map Prod.snd).filter (fun idx => 0 ≤ idx)

/-- The `score_map` dict: for each non-negative returned identifier the
similarity `1 / (1 + d)` of its (last, as dict assignment overwrites)
distance; `dict.get` default 0.0 elsewhere. -/
def score_map (hits : List (ℚ × Int)) (idx : Int) : ℚ :=
  match (hits.filter (fun p => decide (0 ≤ p.2) && p.2 == idx)).getLast? with
  | some p => 1 / (1 + p.1)
  | none => 0

/-- The result row appended by the `semantic_search` loop. -/
def mkSearchHit (doc : Doc) (score : ℚ) (idx : Int) : SearchHit :=
  ⟨doc.content, doc.title, doc.department, doc.source, score, idx⟩

/-- The department filter of `semantic_search`: skip the document when a
non-empty, non-wildcard department filter is present and the document's
department is none of {filter, "public", "general"} (case-sensitive, as in
the source). -/
def deptReject (department : Option String) (doc : Doc) : Bool :=
  match department with
  | none => false
  | some d =>
    if d ≠ "" ∧ d ≠ "*" then !([d, "public", "general"].contains doc.department)
    else false

/-- The `for idx in found_indices` loop of `semantic_search`: skip
identifiers that did not resolve to a document, drop scores below
`min_score`, apply the department filter, and stop once `top_k` rows have
been collected. -/
def searchLoop (docsById : Int → Option Doc) (department : Option String)
    (min_score : ℚ) (eff_top_k : Int) (hits : List (ℚ × Int)) :
    List Int → Nat → List SearchHit
  | [], _ => []
  | idx :: rest, count =>
    match docsById idx with
    | none => searchLoop docsById department min_score eff_top_k hits rest count
    | some doc =>
      if score_map hits idx < min_score then
        searchLoop docsById department min_score eff_top_k hits rest count
      else if deptReject department doc then
        searchLoop docsById department min_score eff_top_k hits rest count
      else if eff_top_k ≤ (count : Int) + 1 then
        [mkSearchHit doc (score_map hits idx) idx]
      else mkSearchHit doc (score_map hits idx) idx ::
        searchLoop docsById department min_score eff_top_k hits rest (count + 1)

/-- `RAGService.semantic_search` after the external calls: `ntotal` is the
index size, `hits` the zipped `(distances[0], indices[0])` of
`index.search`, `docsById` the database join by vector identifier, and
`default_top_k` the configured `settings.vector_search_top_k` (5).  A
passed `top_k` of `None` or `0` falls back to the default (`top_k or
settings.vector_search_top_k` on Python falsy values). -/
def semantic_search (ntotal : Nat) (hits : List (ℚ × Int))
    (docsById : Int → Option Doc) (top_k : Option Int)
    (department : Option String) (min_score : ℚ) (default_top_k : Int) :
    List SearchHit :=
  if ntotal = 0 then []
  else
    let eff_top_k : Int :=
      match top_k with
      | none => default_top_k
      | some k => if k = 0 then default_top_k else k
    let found := found_indices hits
    if found.isEmpty then []
    else searchLoop docsById department min_score eff_top_k hits found 0

/-- Model of Python `f"{score:.2f}"` for the non-negative scores produced
by the search (round-half-up on the exact rational; binary floats never
hit the exact-half disagreement cases). -/
def fmt2 (q : ℚ) : String :=
  let hundredths : Nat := (q.num.toNat * 200 + q.den) / (2 * q.den)
  let frac := hundredths % 100
  toString (hundredths / 100) ++ "." ++
    (if frac < 10 then "0" ++ toString frac else toString frac)

/-- One formatted block of `build_context`: content truncated to 1000
characters, then
`f"[Document {i}: {title}] (relevance: {score:.2f})\n{content}\n"`. -/
def mkPart (i : Nat) (doc : SearchHit) : String :=
  let content :=
    if 1000 < doc.content.length then pyTake doc.content 1000 ++ "..."
    else doc.content
  "[Document " ++ toString i ++ ": " ++ doc.title ++ "] (relevance: " ++
    fmt2 doc.score ++ ")\n" ++ content ++ "\n"

/-- The accumulation loop of `build_context`: append blocks while the
running character total stays within `max_chars`; the first block that
would exceed it stops the loop entirely. -/
def buildLoop (max_chars : Nat) : List SearchHit → Nat → Nat → List String
  | [], _, _ => []
  | doc :: rest, i, total =>
    if max_chars < total + (mkPart i doc).length then []
    else mkPart i doc ::
      buildLoop max_chars rest (i + 1) (total + (mkPart i doc).length)

/-- `RAGService.build_context` on the result list of the underlying
search: the fixed sentinel on an empty result set, otherwise the newline
join of the accumulated blocks with `max_chars = max_tokens * 4`. -/
def build_context (results : List SearchHit) (max_tokens : Nat) : String :=
  if results.isEmpty then "No relevant documents found."
  else pyJoin "\n" (buildLoop (max_tokens * 4) results 1 0)

/-- The exact rational one half, as an explicit numerator/denominator pair
so that it evaluates inside kernel reduction. -/
def ratHalf : ℚ := ⟨1, 2, by decide, by decide⟩

/-- A minimal search hit (empty title and content, score one half) used by
the concrete evaluations. -/
def c7hit : SearchHit := ⟨"", "", "", "", ratHalf, 0⟩

/-- A one-row document table used by the concrete evaluations. -/
def c6doc : Doc := ⟨"chunk text", "Vacation Policy", "public", "hr_policies.pdf"⟩

/- ============ backend/app/schemas/chat.py (serialized shapes) =========== -/

/-- Parsed JSON values; the stored conversation payloads are modelled at
this level (the text form and the tree are in bijection for valid JSON,
which is the json library's contract). -/
inductive Json where
  | null : Json
  | bool : Bool → Json
  | num : ℚ → Json
  | str : String → Json
  | arr : List Json → Json
  | obj : List (String × Json) → Json

/-- `ToolExecution` of `schemas/chat.py`; the `Any` result payload is
modelled as its opaque serialized string. -/
structure ToolExecution where
  tool_name : String
  success : Bool
  result : Option String
  error : Option String
  execution_time_ms : ℚ

/-- `SourceReference` of `schemas/chat.py`. -/
structure SourceReference where
  title : String
  content_snippet : String
  source_type : String
  url : Option String
  relevance_score : ℚ

/-- `ConversationContext` (the identical shape is declared both in
`schemas/chat.py` and as the orchestrator's dataclass). -/
structure ConversationContext where
  conversation_id : String
  messages : List (List (String × String))
  tools_used : List ToolExecution
  sources : List SourceReference

/-- An optional string as pydantic serializes it: `null` or a string. -/
def encodeOptStr : Option String → Json
  | none => Json.null
  | some s => Json.str s

/-- One `dict[str, str]` message as pydantic serializes it. -/
def encodeMsg (m : List (String × String)) : Json :=
  Json.obj (m.map (fun kv => (kv.1, Json.str kv.2)))

/-- A `ToolExecution` as pydantic's `model_dump_json` serializes it
(fields in declaration order, `None` as `null`). -/
def encodeTool (t : ToolExecution) : Json :=
  Json.obj [("tool_name", Json.str t.tool_name), ("success", Json.bool t.success),
    ("result", encodeOptStr t.result), ("error", encodeOptStr t.error),
    ("execution_time_ms", Json.num t.execution_time_ms)]

/-- A `SourceReference` as pydantic's `model_dump_json` serializes it. -/
def encodeSource (s : SourceReference) : Json :=
  Json.obj [("title", Json.str s.title), ("content_snippet", Json.str s.content_snippet),
    ("source_type", Json.str s.source_type), ("url", encodeOptStr s.url),
    ("relevance_score", Json.num s.relevance_score)]

/-- `context.model_dump_json()` of `ConversationStorage.set`, as a JSON
tree. -/
def encodeCtx (c : ConversationContext) : Json :=
  Json.obj [("conversation_id", Json.str c.conversation_id),
    ("messages", Json.arr (c.messages.map encodeMsg)),
    ("tools_used", Json.arr (c.tools_used.map encodeTool)),
    ("sources", Json.arr (c.sources.map encodeSource))]

/-- Validation of an optional-string field. -/
def decodeOptStr : Json → Option (Option String)
  | Json.null => some none
  | Json.str s => some (some s)
  | _ => none

/-- Validation of the entries of one message object: every value must be a
string. -/
def decodeMsgEntries : List (String × Json) → Option (List (String × String))
  | [] => some []
  | (k, v) :: rest =>
    match v with
    | Json.str s => (decodeMsgEntries rest).map (fun tail => (k, s) :: tail)
    | _ => none

/-- Validation of one message (`dict[str, str]`). -/
def decodeMsg : Json → Option (List (String × String))
  | Json.obj kvs => decodeMsgEntries kvs
  | _ => none

/-- Validation of a homogeneous JSON array. -/
def decodeList (f : Json → Option α) : List Json → Option (List α)
  | [] => some []
  | j :: rest =>
    match f j with
    | some a => (decodeList f rest).map (fun tail => a :: tail)
    | none => none

/-- Validation of a serialized `ToolExecution` (the shape
`model_dump_json` produces). -/
def decodeTool : Json → Option ToolExecution
  | Json.obj [("tool_name", Json.str tn), ("success", Json.bool sc),
      ("result", r), ("error", e), ("execution_time_ms", Json.num ms)] =>
    match decodeOptStr r, decodeOptStr e with
    | some r', some e' => some ⟨tn, sc, r', e', ms⟩
    | _, _ => none
  | _ => none

/-- Validation of a serialized `SourceReference`. -/
def decodeSource : Json → Option SourceReference
  | Json.obj [("title", Json.str t), ("content_snippet", Json.str cs),
      ("source_type", Json.str st), ("url", u), ("relevance_score", Json.num rs)] =>
    match decodeOptStr u with
    | some u' => some ⟨t, cs, st, u', rs⟩
    | _ => none
  | _ => none

/-- `ConversationContext.model_validate` on the parsed payload of
`ConversationStorage.get`: `none` models the caught deserialization
exception. -/
def decodeCtx : Json → Option ConversationContext
  | Json.obj [("conversation_id", Json.str cid), ("messages", Json.arr ms),
      ("tools_used", Json.arr ts), ("sources", Json.arr ss)] =>
    match decodeList decodeMsg ms, decodeList decodeTool ts,
        decodeList decodeSource ss with
    | some ms', some ts', some ss' => some ⟨cid, ms', ts', ss'⟩
    | _, _, _ => none
  | _ => none

/- ============ backend/app/services/conversation_storage.py ============== -/

/-- The state of `ConversationStorage`: the optional durable store (as an
association list keyed by the `conv:`-prefixed id, newest first) and the
always-written in-memory fallback map.  The durable store's TTL expiry and
transport failures are outside the round-trip claim (its "modulo
store-imposed TTL expiry"). -/
structure StorageState where
  redisEnabled : Bool
  redis : List (String × Json)
  mem : List (String × Json)

/-- `ConversationStorage.set`: serialize, always write the in-memory copy,
and write the durable store (with TTL) when it is enabled. -/
def storage_set (s : StorageState) (conversation_id : String)
    (context : ConversationContext) : StorageState :=
  { redisEnabled := s.redisEnabled,
    redis :=
      if s.redisEnabled then
        ("conv:" ++ conversation_id, encodeCtx context) :: s.redis
      else s.redis,
    mem := (conversation_id, encodeCtx context) :: s.mem }

/-- `ConversationStorage.get`: read the durable store first when enabled,
fall back to the in-memory map, return `none` when absent or when
validation fails. -/
def storage_get (s : StorageState) (conversation_id : String) :
    Option ConversationContext :=
  match
    (if s.redisEnabled then s.redis.lookup ("conv:" ++ conversation_id) else none)
  with
  | some j => decodeCtx j
  | none =>
    match s.mem.lookup conversation_id with
    | some j => decodeCtx j
    | none => none

/- ================= backend/app/services/mcp_client.py =================== -/

/-- An MCP `Tool` (the parameter schema is opaque reference data). -/
structure Tool where
  name : String
  description : String

/-- The static keyword table of `Tool.should_use`, with the
`dict.get(name, [])` default. -/
def TOOL_KEYWORDS (name : String) : List String :=
  if name = "search_documents" then
    ["document", "policy", "guide", "manual", "find", "search", "company"]
  else if name = "query_database" then
    ["database", "sql", "query", "employee", "salary", "project", "department"]
  else if name = "get_database_schema" then
    ["schema", "tables", "columns", "database structure"]
  else if name = "search_github" then
    ["github", "issue", "pull request", "pr", "repository", "repo", "code"]
  else if name = "get_github_file" then
    ["file content", "source code", "readme"]
  else if name = "search_jira" then
    ["jira", "ticket", "task", "story", "bug", "sprint"]
  else if name = "get_jira_ticket" then
    ["jira ticket", "ticket details"]
  else if name = "list_jira_sprints" then
    ["sprint", "sprints", "iteration"]
  else []

/-- `Tool.should_use`: case-insensitive keyword substring match against
the query. -/
def should_use (tool : Tool) (query : String) : Bool :=
  (TOOL_KEYWORDS tool.name).any (fun kw => pyIn kw (pyLower query))

/-- The JSON dict returned by the MCP server for a tool call; every field
optional, as the callers read them with `dict.get`. -/
structure ToolResponse where
  success : Option Bool
  tool_name : Option String
  result : Option String
  error : Option String
  execution_time_ms : Option ℚ

/-- Outcome of the `POST /tools/{name}` transport call inside
`MCPClient.call_tool`: an `httpx.HTTPError` (connection, timeout, or
`raise_for_status`), a raised non-HTTP error such as a JSON decode
failure (not caught by `call_tool`), or a parsed response. -/
inductive TransportOutcome where
  | httpError : String → TransportOutcome
  | badJson : String → TransportOutcome
  | ok : ToolResponse → TransportOutcome

/-- `MCPClient.call_tool` around the transport call: HTTP errors convert
to the structured failure dict carrying the measured elapsed
milliseconds; other raised exceptions propagate. -/
def call_tool (tool_name : String) (outcome : TransportOutcome) (elapsed : ℚ) :
    Except String ToolResponse :=
  match outcome with
  | TransportOutcome.ok r => Except.ok r
  | TransportOutcome.httpError e =>
    Except.ok
      { success := some false
        tool_name := some tool_name
        result := none
        error := some ("Tool call failed: " ++ e)
        execution_time_ms := some elapsed }
  | TransportOutcome.badJson m => Except.error m

/- =============== backend/app/services/ai_orchestrator.py ================ -/

/-- The configuration fields `handle_query` and `_call_llm` read. -/
structure Settings where
  ai_provider : String
  openai_model : String
  anthropic_model : String
  openai_max_tokens : Nat
  vector_search_top_k : Int

/-- The degraded-answer template of `AIOrchestrator._call_llm`. -/
def degraded_answer (e : String) : String :=
  "I apologize, but I encountered an error processing your request. Please try again later. Error: " ++ e

/-- Oracle outcomes of the two provider SDK calls: the anthropic response
content blocks or the openai choices message contents (`none` models a
null `content`), or a raised provider error. -/
structure LLMEnv where
  anthropicResult : Except String (List String)
  openaiResult : Except String (List (Option String))

/-- `AIOrchestrator._call_llm`: provider selected by configuration; any
raised provider error (including the IndexError of reading the first
element of an empty content/choices list inside the same `try`) becomes
the degraded-answer template; openai coalesces a null content to `""`.
The resolved token budget (`max_tokens or settings.openai_max_tokens`) is
only forwarded to the provider. -/
def call_llm (st : Settings) (env : LLMEnv) (prompt : String)
    (max_tokens : Option Nat) : String :=
  if st.ai_provider = "anthropic" then
    match env.anthropicResult with
    | Except.error e => degraded_answer e
    | Except.ok [] => degraded_answer "list index out of range"
    | Except.ok (b :: _) => b
  else
    match env.openaiResult with
    | Except.error e => degraded_answer e
    | Except.ok [] => degraded_answer "list index out of range"
    | Except.ok (c :: _) => c.getD ""

/-- The resolved user dict `{id, email, role, department}` of
`handle_query`, read with `dict.get` defaults. -/
structure PyUser where
  id : Option Nat
  role : Option String
  department : Option String

/-- `ChatRequest` of `schemas/chat.py` (`include_sources` defaults to
true at the API boundary). -/
structure ChatRequest where
  query : String
  conversation_id : Option String
  include_sources : Bool
  max_tokens : Option Nat

/-- `ChatResponse` of `schemas/chat.py` (timestamp omitted: wall clock). -/
structure ChatResponse where
  answer : String
  conversation_id : String
  sources : List SourceReference
  tools_used : List ToolExecution
  processing_time_ms : ℚ
  model_used : String

/-- `AIOrchestrator._prepare_tool_params` (`none` models a JSON null
parameter value). -/
def prepare_tool_params (tool_name query : String) (user : PyUser) :
    List (String × Option String) :=
  if tool_name = "search_documents" then
    [("query", some query), ("department", some (user.department.getD "general"))]
  else if tool_name = "query_database" then
    [("query", some "SELECT * FROM employees LIMIT 5")]
  else if tool_name = "search_github" then
    [("query", some query), ("search_type", some "issues"), ("state", some "open")]
  else if tool_name = "search_jira" then
    [("query", some query), ("status", none)]
  else [("query", some query)]

/-- Per-query oracles of the orchestrator's external collaborators:
the capability-registry discovery outcome, the per-tool transport outcome
and measured elapsed time, the provider outcomes, the generated uuid, and
the measured total time. -/
structure OrchEnv where
  discovery : Except String (List Tool)
  transport : String → List (String × Option String) → TransportOutcome
  elapsed : String → ℚ
  llm : LLMEnv
  freshId : String
  queryTimeMs : ℚ

/-- `MCPClient.discover_tools`: on any transport failure degrade to the
single fallback `search_documents` tool. -/
def discover_tools (outcome : Except String (List Tool)) : List Tool :=
  match outcome with
  | Except.ok ts => ts
  | Except.error _ => [⟨"search_documents", "Search internal documents"⟩]

/-- The `execute_tool_safe` wrapper inside `handle_query`: build the
parameters, call the tool, and convert the outcome — or any raised
exception — into a `ToolExecution` record. -/
def execute_tool_safe (tool : Tool) (query : String) (user : PyUser)
    (role : String) (env : OrchEnv) : ToolExecution :=
  match call_tool tool.name
      (env.transport tool.name (prepare_tool_params tool.name query user))
      (env.elapsed tool.name) with
  | Except.ok r =>
    ⟨tool.name, r.success.getD false,
      if r.success.getD false then r.result else none,
      r.error, r.execution_time_ms.getD 0⟩
  | Except.error m => ⟨tool.name, false, none, some m, 0⟩

/-- The tool fan-out of `handle_query`: filter the discovered tools by the
applicability heuristic and the permission check, then execute each
through the safe wrapper (gather preserves task order). -/
def run_turn_tools (env : OrchEnv) (user : PyUser) (role query : String)
    (tools : List Tool) : List ToolExecution :=
  (tools.filter (fun t => should_use t query && can_access_tool role t.name)).map
    (fun t => execute_tool_safe t query user role env)

/-- Python `str(x)` of an optional payload (`None` prints as "None"). -/
def pyStrOpt : Option String → String
  | none => "None"
  | some s => s

/-- The `## Tool Results` section of `_build_prompt`. -/
def tool_text (tool_results : List (String × Option String)) : String :=
  if tool_results.isEmpty then ""
  else
    tool_results.foldl
      (fun acc r => acc ++ "**" ++ r.1 ++ "**:\n" ++ pyTake (pyStrOpt r.2) 1000 ++ "\n\n")
      "\n## Tool Results\n"

/-- The `## Conversation History` section of `_build_prompt`: last 4
messages, each content truncated to 500 characters. -/
def history_text (conversation_history : List (List (String × String))) : String :=
  if conversation_history.isEmpty then ""
  else
    (pyTakeLast conversation_history 4).foldl
      (fun acc msg =>
        acc ++ strCapitalize ((msg.lookup "role").getD "") ++ ": " ++
          pyTake ((msg.lookup "content").getD "") 500 ++ "\n")
      "\n## Conversation History\n"

/-- `AIOrchestrator._build_prompt`: the f-string template around the
context, tool and history sections. -/
def build_prompt (query rag_context : String)
    (tool_results : List (String × Option String))
    (conversation_history : List (List (String × String))) : String :=
  "You are an Enterprise AI Assistant helping employees find information and answer questions about company resources.\n\n## Context from Documents\n"
    ++ rag_context ++ "\n" ++ tool_text tool_results ++ "\n"
    ++ history_text conversation_history
    ++ "\n\n## User Question\n" ++ query
    ++ "\n\n## Instructions\n- Answer the question based on the provided context and tool results\n- If you don\x27t have enough information, say so clearly\n- Be concise but comprehensive\n- Use professional, helpful language\n- If referencing specific documents or data, mention the source\n\nAnswer:"

/-- A Python value that may be an un-awaited coroutine object (the result
of calling an `async def` without `await`). -/
inductive PyVal (α : Type) where
  | val : α → PyVal α
  | coroutine : String → PyVal α

/-- Interpolating a possibly-coroutine value into an f-string. -/
def pyRepr (f : α → String) : PyVal α → String
  | PyVal.val a => f a
  | PyVal.coroutine n => "<coroutine object " ++ n ++ ">"

/-- Python `x[:n]` on a possibly-coroutine list value: slicing a coroutine
object raises `TypeError`. -/
def pySlice (n : Nat) : PyVal (List α) → Except String (List α)
  | PyVal.val l => Except.ok (l.take n)
  | PyVal.coroutine _ =>
    Except.error "TypeError: coroutine object is not subscriptable"

/-- `AIOrchestrator.get_or_create_conversation` over the module-level
`_conversations` dict (newest entry first): a Python-falsy (absent or
empty) conversation id, or an unknown one, creates a fresh context, with
the generated uuid when the id was falsy. -/
def get_or_create_conversation (conversation_id : Option String)
    (freshId : String)
    (conversations : List (String × ConversationContext)) :
    ConversationContext × List (String × ConversationContext) :=
  match conversation_id with
  | some cid =>
    if cid ≠ "" then
      match conversations.lookup cid with
      | some ctx => (ctx, conversations)
      | none =>
        (⟨cid, [], [], []⟩,
          (cid, (⟨cid, [], [], []⟩ : ConversationContext)) :: conversations)
    else
      (⟨freshId, [], [], []⟩,
        (freshId, (⟨freshId, [], [], []⟩ : ConversationContext)) :: conversations)
  | none =>
    (⟨freshId, [], [], []⟩,
      (freshId, (⟨freshId, [], [], []⟩ : ConversationContext)) :: conversations)

/-- Steps 3 to 6 of `handle_query`, producing the assistant answer: the
prompt is assembled from the (un-awaited, so coroutine-valued) RAG
context, the successful tool results, and the last 10 stored messages,
and handed to the LLM gateway. -/
def turn_answer (st : Settings) (env : OrchEnv) (user : PyUser)
    (req : ChatRequest) (context : ConversationContext) : String :=
  let user_role := user.role.getD "employee"
  let tools := discover_tools env.discovery
  let rag_context : PyVal String := PyVal.coroutine "RAGService.build_context"
  let tools_used := run_turn_tools env user user_role req.query tools
  let tool_results :=
    (tools_used.filter (fun te => te.success)).map (fun te => (te.tool_name, te.result))
  call_llm st env.llm
    (build_prompt req.query (pyRepr id rag_context) tool_results
      (pyTakeLast context.messages 10))
    req.max_tokens

/-- `AIOrchestrator.handle_query`.  The returned triple is the response
or the raised exception, the module-level `_conversations` dict after the
in-place mutation, and the list of `ConversationStorage.set` invocations
made while handling (the source makes none: it only mutates its
module-level dict).  Two calls in the source lack `await`:
`rag_service.build_context(...)` (line 117) and
`rag_service.semantic_search(...)` (line 196), so both evaluate to
coroutine objects; the first is interpolated into the prompt, the second
is sliced with `[:3]`, which raises. -/
def handle_query (st : Settings) (env : OrchEnv) (user : PyUser)
    (req : ChatRequest)
    (conversations : List (String × ConversationContext)) :
    Except String ChatResponse × List (String × ConversationContext) × List String :=
  let gc := get_or_create_conversation req.conversation_id env.freshId conversations
  let context := gc.1
  let user_role := user.role.getD "employee"
  let tools := discover_tools env.discovery
  let tools_used := run_turn_tools env user user_role req.query tools
  let answer := turn_answer st env user req context
  let context2 : ConversationContext :=
    ⟨context.conversation_id,
      context.messages ++
        [[("role", "user"), ("content", req.query)],
         [("role", "assistant"), ("content", answer)]],
      context.tools_used ++ tools_used,
      context.sources⟩
  let convs2 := (context.conversation_id, context2) :: gc.2
  let model_used :=
    if st.ai_provider = "openai" then st.openai_model else st.anthropic_model
  if req.include_sources then
    match pySlice 3
        (PyVal.coroutine "RAGService.semantic_search" : PyVal (List SearchHit)) with
    | Except.error e => (Except.error e, convs2, [])
    | Except.ok rag_results =>
      (Except.ok ⟨answer, context.conversation_id,
          rag_results.map (fun d =>
            ⟨d.title, pyTake d.content 200, "document", none, d.score⟩),
          tools_used, env.queryTimeMs, model_used⟩,
        convs2, [])
  else
    (Except.ok ⟨answer, context.conversation_id, [], tools_used,
        env.queryTimeMs, model_used⟩,
      convs2, [])

/-- The concrete user of the `handle_query` evaluations. -/
def c3user : PyUser := ⟨some 1, some "employee", some "hr"⟩

/-- A query request with sources requested (the API default). -/
def c3req : ChatRequest := ⟨"hello", none, true, none⟩

/-- The same request with sources not requested. -/
def c8req : ChatRequest := ⟨"hello", none, false, none⟩

/-- A concrete openai-provider configuration. -/
def c3st : Settings := ⟨"openai", "gpt-4", "claude-3-sonnet", 2000, 5⟩

/-- A concrete environment: discovery succeeds with no tools, the provider
answers "ANSWER". -/
def c3env : OrchEnv :=
  ⟨Except.ok [], fun _ _ => TransportOutcome.httpError "x", fun _ => 0,
    ⟨Except.ok ["a"], Except.ok [some "ANSWER"]⟩, "conv-1", 0⟩

/-- A concrete environment whose tool transport always times out. -/
def c5env : OrchEnv :=
  ⟨Except.ok [], fun _ _ => TransportOutcome.httpError "timeout", fun _ => 123,
    ⟨Except.error "x", Except.error "x"⟩, "u1", 0⟩

/- ============================== Theorems ================================ -/

/-- C1: `can_access_tool(r, t)` returns true exactly when `t` is in the
static permitted tool set mapped to `r` over the closed role set
{admin, manager, employee}; every unknown role and every tool name outside
the role's set yields false (fail closed), and the function is total. -/
theorem C1_can_access_tool_characterization (r t : String) :
    can_access_tool r t = true ↔
      ((r = "admin" ∧ t ∈ ["search_documents", "query_database", "search_github",
          "search_jira", "get_github_file", "get_jira_ticket"]) ∨
       (r = "manager" ∧ t ∈ ["search_documents", "query_database", "search_jira",
          "get_jira_ticket"]) ∨
       (r = "employee" ∧ t ∈ ["search_documents"])) := by
  have h : can_access_tool r t = true ↔ t ∈ ROLE_TOOL_PERMISSIONS r := by
    simp [can_access_tool, List.contains]
  rw [h]; unfold ROLE_TOOL_PERMISSIONS
  by_cases h1 : r = "admin" <;> by_cases h2 : r = "manager" <;>
    by_cases h3 : r = "employee" <;> simp_all

/-- C2 counterexample: at requester department "marketing" (unknown to the
static mapping, so the allow-set defaults to {"public"}), role "employee"
and document department "general", the claimed predicate ("... or the
document's department is public/general") answers true while the source
function answers false. -/
theorem C2_counterexample :
    claimedDeptVisibility "marketing" "employee" "general" = true ∧
    can_access_department_docs "marketing" "employee" "general" = false := by
  exact ⟨by decide, by decide⟩

/-- C2 (amended): admin role is always allowed; otherwise the allow-set is
resolved case-insensitively from the requester department; a requester
whose lower-cased department is "admin" holds the wildcard; a requester in
one of the four known departments sees documents of their own department
and "general"/"public"; a requester in any unknown department sees only
"public" documents (not "general" ones, and not their own department). -/
theorem C2_can_access_department_docs_amended (ud ur dd : String) :
    can_access_department_docs ud ur dd = true ↔
      (ur = "admin" ∨ pyLower ud = "admin" ∨
        (pyLower ud ∈ (["engineering", "hr", "finance", "sales"] : List String) ∧
          (pyLower dd = pyLower ud ∨ pyLower dd = "general" ∨ pyLower dd = "public")) ∨
        (pyLower ud ∉ (["engineering", "hr", "finance", "sales", "admin"] : List String) ∧
          pyLower dd = "public")) := by
  unfold can_access_department_docs DEPARTMENT_DOCUMENT_ACCESS
  by_cases hr : ur = "admin"
  · simp [hr]
  · by_cases h1 : pyLower ud = "engineering" <;>
    by_cases h2 : pyLower ud = "hr" <;>
    by_cases h3 : pyLower ud = "finance" <;>
    by_cases h4 : pyLower ud = "sales" <;>
    by_cases h5 : pyLower ud = "admin" <;>
      simp_all [List.contains]

/-- Fuel adequacy for the `chunk_text` loop: with `overlap < chunk_size`
the loop finishes (returns `some`) whenever the fuel exceeds the number of
words still ahead of `start`. -/
theorem chunkLoop_isSome (words : List String) (cs ov : Nat) (hov : ov < cs) :
    ∀ fuel start, words.length - start < fuel →
      ∃ l, chunkLoop words cs ov start fuel = some l := by
  intro fuel
  induction fuel with
  | zero => intro start h; omega
  | succ f ih =>
    intro start h
    by_cases hs : start < words.length
    · obtain ⟨l, hl⟩ := ih (start + (cs - ov)) (by omega)
      exact ⟨pyJoin " " ((words.drop start).take cs) :: l, by simp [chunkLoop, hs, hl]⟩
    · exact ⟨[], by simp [chunkLoop, hs]⟩

/-- Window coverage for the `chunk_text` loop: every word position at or
beyond the current start is covered by the `chunk_size`-wide window of
some emitted chunk. -/
theorem chunkLoop_covers (words : List String) (cs ov : Nat) :
    ∀ fuel start l, chunkLoop words cs ov start fuel = some l →
      ∀ i, start ≤ i → i < words.length →
        ∃ s, start ≤ s ∧ s ≤ i ∧ i < s + cs ∧
          pyJoin " " ((words.drop s).take cs) ∈ l := by
  intro fuel
  induction fuel with
  | zero => intro start l h; simp [chunkLoop] at h
  | succ f ih =>
    intro start l h i hsi hi
    by_cases hs : start < words.length
    · cases hrec : chunkLoop words cs ov (start + (cs - ov)) f with
      | none => simp [chunkLoop, hs, hrec] at h
      | some rest =>
        simp [chunkLoop, hs, hrec] at h
        by_cases hic : i < start + cs
        · exact ⟨start, le_refl start, hsi, hic, by rw [← h]; exact List.mem_cons_self _ _⟩
        · obtain ⟨s, hs1, hs2, hs3, hs4⟩ :=
            ih (start + (cs - ov)) rest hrec i (by omega) hi
          exact ⟨s, by omega, hs2, hs3, by rw [← h]; exact List.mem_cons_of_mem _ hs4⟩
    · omega

/-- C10: under the precondition `overlap < chunk_size`, `chunk_text`
terminates on every input (the fuelled loop returns `some`): a text of at
most `chunk_size` words is returned as the single unmodified chunk, and
otherwise every word of the input lies in the window of at least one
returned chunk. -/
theorem C10_chunk_text_total (text : String) (cs ov : Nat) (hov : ov < cs) :
    ∃ chunks : List String, chunk_text text cs ov = some chunks ∧
      ((pySplit text).length ≤ cs → chunks = [text]) ∧
      (cs < (pySplit text).length →
        ∀ i, i < (pySplit text).length →
          ∃ s, s ≤ i ∧ i < s + cs ∧
            pyJoin " " (((pySplit text).drop s).take cs) ∈ chunks) := by
  by_cases hsmall : (pySplit text).length ≤ cs
  · exact ⟨[text], by simp [chunk_text, hsmall], fun _ => rfl, by omega⟩
  · obtain ⟨l, hl⟩ :=
      chunkLoop_isSome (pySplit text) cs ov hov ((pySplit text).length + 1) 0 (by omega)
    refine ⟨l, by simp [chunk_text, hsmall, hl], by intro h; omega, ?_⟩
    intro _ i hi
    obtain ⟨s, _, hs2, hs3, hs4⟩ :=
      chunkLoop_covers (pySplit text) cs ov ((pySplit text).length + 1) 0 l hl i
        (Nat.zero_le i) hi
    exact ⟨s, hs2, hs3, hs4⟩

/-- C10 witness: the theorem applied at the concrete input
"one two three" with chunk size 2 and overlap 1. -/
theorem C10_chunk_text_total_witness :
    1 < 2 ∧ ∃ chunks : List String, chunk_text "one two three" 2 1 = some chunks ∧
      ((pySplit "one two three").length ≤ 2 → chunks = ["one two three"]) ∧
      (2 < (pySplit "one two three").length →
        ∀ i, i < (pySplit "one two three").length →
          ∃ s, s ≤ i ∧ i < s + 2 ∧
            pyJoin " " (((pySplit "one two three").drop s).take 2) ∈ chunks) :=
  ⟨by decide, C10_chunk_text_total "one two three" 2 1 (by decide)⟩

/-- Budget invariant of the `build_context` loop: the kept blocks' total
character count never exceeds the remaining budget, because the block that
would exceed it stops the loop before being appended. -/
theorem buildLoop_sum (mc : Nat) : ∀ (l : List SearchHit) (i total : Nat),
    total ≤ mc →
    ((buildLoop mc l i total).map String.length).sum + total ≤ mc := by
  intro l
  induction l with
  | nil => intro i total h; simpa [buildLoop] using h
  | cons doc rest ih =>
    intro i total h
    by_cases hover : mc < total + (mkPart i doc).length
    · simpa [buildLoop, hover] using h
    · have hrec := ih (i + 1) (total + (mkPart i doc).length) (by omega)
      simp only [buildLoop, if_neg hover, List.map_cons, List.sum_cons]
      omega

/-- Length of a separator join: the blocks' total plus one separator per
gap. -/
theorem pyJoin_length (sep : String) (l : List String) :
    (pyJoin sep l).length =
      (l.map String.length).sum + sep.length * (l.length - 1) := by
  induction l with
  | nil => simp [pyJoin]
  | cons a rest ih =>
    cases rest with
    | nil => simp [pyJoin]
    | cons b t =>
      simp only [pyJoin, String.length_append, List.map_cons, List.sum_cons,
        List.length_cons, Nat.succ_sub_one] at ih ⊢
      rw [ih]; ring

set_option maxRecDepth 100000 in
/-- C7 counterexample: with 41 minimal blocks (each of length at most 35,
including the excluded triggering one) and `maxTokens = 348`, the built
context is 1430 characters long, exceeding `maxTokens * 4` plus the size
of one additional block (1392 + 35 = 1427), because the newline join adds
one character per gap between kept blocks. -/
theorem C7_counterexample :
    ((List.range 41).map (fun k => mkPart (k + 1) c7hit)).all
        (fun p => p.length ≤ 35) = true ∧
    (build_context (List.replicate 41 c7hit) 348).length = 1430 ∧
    348 * 4 + 35 < 1430 := by
  exact ⟨by decide, by decide, by decide⟩

/-- C7 (amended): an empty result set yields the fixed sentinel string; on
any result set the kept blocks' total length is at most `maxTokens * 4`
(the block that triggers the stop is excluded entirely, never truncated),
and the returned string exceeds that total only by the joining newlines —
one per gap between kept blocks. -/
theorem C7_build_context_amended (results : List SearchHit) (mt : Nat) :
    (results = [] → build_context results mt = "No relevant documents found.") ∧
    ((buildLoop (mt * 4) results 1 0).map String.length).sum ≤ mt * 4 ∧
    (results ≠ [] →
      (build_context results mt).length ≤
        mt * 4 + ((buildLoop (mt * 4) results 1 0).length - 1)) := by
  refine ⟨fun h => by simp [build_context, h], ?_, ?_⟩
  · have := buildLoop_sum (mt * 4) results 1 0 (Nat.zero_le _)
    omega
  · intro hne
    have hsum := buildLoop_sum (mt * 4) results 1 0 (Nat.zero_le _)
    have hjoin := pyJoin_length "\n" (buildLoop (mt * 4) results 1 0)
    have hbc : build_context results mt =
        pyJoin "\n" (buildLoop (mt * 4) results 1 0) := by
      simp [build_context, hne]
    rw [hbc, hjoin]
    have hsep : ("\n" : String).length = 1 := rfl
    rw [hsep, one_mul]
    omega

/-- C7 witness: the amended theorem applied at the empty result set and at
`maxTokens = 348`. -/
theorem C7_build_context_amended_witness :
    build_context ([] : List SearchHit) 348 = "No relevant documents found." ∧
    ((buildLoop (348 * 4) ([] : List SearchHit) 1 0).map String.length).sum ≤ 348 * 4 :=
  ⟨(C7_build_context_amended [] 348).1 rfl, (C7_build_context_amended [] 348).2.1⟩

/-- Length bound for the `semantic_search` loop: once `count` rows are
already collected, at most `eff_top_k - count` more are appended, because
reaching `eff_top_k` stops the loop. -/
theorem searchLoop_length (docsById : Int → Option Doc) (department : Option String)
    (min_score : ℚ) (eff_top_k : Int) (hits : List (ℚ × Int)) :
    ∀ (l : List Int) (count : Nat), (count : Int) < eff_top_k →
      ((searchLoop docsById department min_score eff_top_k hits l count).length : Int)
        ≤ eff_top_k - count := by
  intro l
  induction l with
  | nil => intro count h; simp [searchLoop]; omega
  | cons idx rest ih =>
    intro count h
    cases hd : docsById idx with
    | none =>
      have := ih count h
      simpa [searchLoop, hd] using this
    | some doc =>
      by_cases hsc : score_map hits idx < min_score
      · simpa [searchLoop, hd, hsc] using ih count h
      · by_cases hdr : deptReject department doc
        · simpa [searchLoop, hd, hsc, hdr] using ih count h
        · by_cases hbr : eff_top_k ≤ (count : Int) + 1
          · simp [searchLoop, hd, hsc, hdr, hbr]; omega
          · have hrec := ih (count + 1) (by push_cast; omega)
            simp only [searchLoop, hd, if_neg hsc, if_neg hdr, if_neg hbr,
              List.length_cons]
            push_cast at hrec ⊢
            omega

/-- Every row produced by the `semantic_search` loop carries an identifier
from the candidate list and the score the `score_map` assigns to it. -/
theorem searchLoop_mem (docsById : Int → Option Doc) (department : Option String)
    (min_score : ℚ) (eff_top_k : Int) (hits : List (ℚ × Int)) :
    ∀ (l : List Int) (count : Nat) (x : SearchHit),
      x ∈ searchLoop docsById department min_score eff_top_k hits l count →
      x.index ∈ l ∧ x.score = score_map hits x.index := by
  intro l
  induction l with
  | nil => intro count x hx; simp [searchLoop] at hx
  | cons idx rest ih =>
    intro count x hx
    cases hd : docsById idx with
    | none =>
      simp only [searchLoop, hd] at hx
      obtain ⟨h1, h2⟩ := ih count x hx
      exact ⟨List.mem_cons_of_mem _ h1, h2⟩
    | some doc =>
      simp only [searchLoop, hd] at hx
      by_cases hsc : score_map hits idx < min_score
      · rw [if_pos hsc] at hx
        obtain ⟨h1, h2⟩ := ih count x hx
        exact ⟨List.mem_cons_of_mem _ h1, h2⟩
      · rw [if_neg hsc] at hx
        by_cases hdr : deptReject department doc
        · rw [if_pos hdr] at hx
          obtain ⟨h1, h2⟩ := ih count x hx
          exact ⟨List.mem_cons_of_mem _ h1, h2⟩
        · rw [if_neg hdr] at hx
          by_cases hbr : eff_top_k ≤ (count : Int) + 1
          · rw [if_pos hbr, List.mem_singleton] at hx
            subst hx
            exact ⟨List.mem_cons_self _ _, rfl⟩
          · rw [if_neg hbr, List.mem_cons] at hx
            rcases hx with rfl | hx
            · exact ⟨List.mem_cons_self _ _, rfl⟩
            · obtain ⟨h1, h2⟩ := ih (count + 1) x hx
              exact ⟨List.mem_cons_of_mem _ h1, h2⟩

/-- The `semantic_search` loop preserves score-descending order: when the
candidate identifiers are non-increasing under `score_map`, so is the
returned row list. -/
theorem searchLoop_pairwise (docsById : Int → Option Doc) (department : Option String)
    (min_score : ℚ) (eff_top_k : Int) (hits : List (ℚ × Int)) :
    ∀ (l : List Int) (count : Nat),
      l.Pairwise (fun i j => score_map hits j ≤ score_map hits i) →
      (searchLoop docsById department min_score eff_top_k hits l count).Pairwise
        (fun a b => b.score ≤ a.score) := by
  intro l
  induction l with
  | nil => intro count _; simp [searchLoop]
  | cons idx rest ih =>
    intro count hp
    rw [List.pairwise_cons] at hp
    obtain ⟨hhead, htail⟩ := hp
    cases hd : docsById idx with
    | none => simpa [searchLoop, hd] using ih count htail
    | some doc =>
      by_cases hsc : score_map hits idx < min_score
      · simpa [searchLoop, hd, hsc] using ih count htail
      · by_cases hdr : deptReject department doc
        · simpa [searchLoop, hd, hsc, hdr] using ih count htail
        · by_cases hbr : eff_top_k ≤ (count : Int) + 1
          · simp [searchLoop, hd, hsc, hdr, hbr]
          · simp only [searchLoop, hd, if_neg hsc, if_neg hdr, if_neg hbr]
            rw [List.pairwise_cons]
            refine ⟨?_, ih (count + 1) htail⟩
            intro y hy
            obtain ⟨hmem, hscore⟩ :=
              searchLoop_mem docsById department min_score eff_top_k hits rest
                (count + 1) y hy
            rw [hscore]
            exact hhead y.index hmem

/-- An identifier of a hit with non-negative index is among the found
indices. -/
theorem mem_found_indices (hits : List (ℚ × Int)) (p : ℚ × Int)
    (hp : p ∈ hits) (hnn : 0 ≤ p.2) : p.2 ∈ found_indices hits := by
  simp only [found_indices, List.mem_filter, List.mem_map, decide_eq_true_eq]
  exact ⟨⟨p, hp, rfl⟩, hnn⟩

/-- Every found identifier resolves through the `score_map` to the
similarity of one of the index search's returned distances. -/
theorem score_map_found (hits : List (ℚ × Int)) (idx : Int)
    (hidx : idx ∈ found_indices hits) :
    ∃ p, p ∈ hits ∧ p.2 = idx ∧ score_map hits idx = 1 / (1 + p.1) := by
  have hne : hits.filter (fun p => decide (0 ≤ p.2) && p.2 == idx) ≠ [] := by
    simp only [found_indices, List.mem_filter, List.mem_map, decide_eq_true_eq] at hidx
    obtain ⟨⟨p, hp, hpidx⟩, hnn⟩ := hidx
    intro hcontra
    have hmem : p ∈ hits.filter (fun p => decide (0 ≤ p.2) && p.2 == idx) := by
      rw [List.mem_filter]
      refine ⟨hp, ?_⟩
      simp [hpidx, hnn]
    rw [hcontra] at hmem
    simp at hmem
  obtain ⟨q, hq⟩ := Option.isSome_iff_exists.mp (List.getLast?_isSome.mpr hne)
  have hqmem := List.mem_of_mem_getLast? hq
  rw [List.mem_filter] at hqmem
  obtain ⟨hq1, hq2⟩ := hqmem
  simp only [Bool.and_eq_true, decide_eq_true_eq, beq_iff_eq] at hq2
  refine ⟨q, hq1, hq2.2, ?_⟩
  simp [score_map, hq]

/-- When the found identifiers are pairwise distinct, each hit with a
non-negative identifier is the unique entry the `score_map` filter keeps
for its identifier. -/
theorem filter_snd_single :
    ∀ (hits : List (ℚ × Int)), (found_indices hits).Nodup →
      ∀ p, p ∈ hits → 0 ≤ p.2 →
        hits.filter (fun q => decide (0 ≤ q.2) && q.2 == p.2) = [p] := by
  intro hits
  induction hits with
  | nil => intro _ p hp _; simp at hp
  | cons x t ih =>
    intro hnd p hp hpnn
    by_cases hx : 0 ≤ x.2
    · have hfc : found_indices (x :: t) = x.2 :: found_indices t := by
        simp [found_indices, List.filter_cons, hx]
      rw [hfc, List.nodup_cons] at hnd
      obtain ⟨hxnotin, hndt⟩ := hnd
      rcases List.mem_cons.mp hp with heq | hpt
      · subst heq
        have hhead : (decide (0 ≤ p.2) && p.2 == p.2) = true := by simp [hx]
        rw [List.filter_cons, if_pos hhead]
        have hnil : t.filter (fun q => decide (0 ≤ q.2) && q.2 == p.2) = [] := by
          rw [List.filter_eq_nil_iff]
          intro q hq hq2
          simp only [Bool.and_eq_true, decide_eq_true_eq, beq_iff_eq] at hq2
          exact hxnotin (hq2.2 ▸ mem_found_indices t q hq hq2.1)
        rw [hnil]
      · have hne : x.2 ≠ p.2 := by
          intro hcontra
          exact hxnotin (hcontra ▸ mem_found_indices t p hpt hpnn)
        have hhead : (decide (0 ≤ x.2) && x.2 == p.2) = false := by
          simp [hne]
        rw [List.filter_cons, if_neg (by simp [hhead])]
        exact ih hndt p hpt hpnn
    · have hfc : found_indices (x :: t) = found_indices t := by
        simp [found_indices, List.filter_cons, hx]
      rw [hfc] at hnd
      rcases List.mem_cons.mp hp with heq | hpt
      · subst heq
        exact absurd hpnn hx
      · have hhead : (decide (0 ≤ x.2) && x.2 == p.2) = false := by
          simp [hx]
        rw [List.filter_cons, if_neg (by simp [hhead])]
        exact ih hnd p hpt hpnn

/-- Under distinct found identifiers, the `score_map` of a hit's
identifier is exactly the similarity of that hit's own distance. -/
theorem score_map_eq_of_nodup (hits : List (ℚ × Int))
    (hnd : (found_indices hits).Nodup) (p : ℚ × Int)
    (hp : p ∈ hits) (hnn : 0 ≤ p.2) :
    score_map hits p.2 = 1 / (1 + p.1) := by
  simp [score_map, filter_snd_single hits hnd p hp hnn]

/-- Distance-ascending index results with distinct identifiers give
score-non-increasing found identifiers. -/
theorem found_indices_pairwise (hits : List (ℚ × Int))
    (hsorted : hits.Pairwise (fun p q => p.1 ≤ q.1))
    (hnn : ∀ p ∈ hits, 0 ≤ p.1)
    (hnd : (found_indices hits).Nodup) :
    (found_indices hits).Pairwise (fun i j => score_map hits j ≤ score_map hits i) := by
  have hF : found_indices hits =
      (hits.filter (fun q => decide (0 ≤ q.2))).map Prod.snd :=
    List.filter_map Prod.snd hits
  rw [hF, List.pairwise_map]
  have hP : (hits.filter (fun q => decide (0 ≤ q.2))).Pairwise
      (fun p q => p.1 ≤ q.1) := hsorted.filter _
  refine hP.imp_of_mem ?_
  intro a b ha hb hab
  rw [List.mem_filter] at ha hb
  have ha2 : 0 ≤ a.2 := by simpa using ha.2
  have hb2 : 0 ≤ b.2 := by simpa using hb.2
  rw [score_map_eq_of_nodup hits hnd a ha.1 ha2,
    score_map_eq_of_nodup hits hnd b hb.1 hb2]
  have h1 : 0 ≤ a.1 := hnn a ha.1
  exact one_div_le_one_div_of_le (by linarith) (by linarith)

/-- C6 counterexample: the claim quantifies over every `topK`, but a
passed `topK` of 0 is Python-falsy and is replaced by the configured
default (5), so the search can return more than 0 results: here one hit
with one matching document yields a result list of length 1. -/
theorem C6_counterexample :
    ¬ ((semantic_search 1 [((1 : ℚ), (0 : Int))] (fun _ => some c6doc)
        (some 0) none 0 5).length ≤ 0) := by
  have hres : semantic_search 1 [((1 : ℚ), (0 : Int))] (fun _ => some c6doc)
      (some 0) none 0 5 =
      [mkSearchHit c6doc (score_map [((1 : ℚ), (0 : Int))] 0) 0] := by
    have hsc0 : (0 : ℚ) ≤ score_map [((1 : ℚ), (0 : Int))] 0 := by
      simp only [score_map, List.filter]
      norm_num
    have hsc : ¬ (score_map [((1 : ℚ), (0 : Int))] 0 < 0) := not_lt.mpr hsc0
    simp [semantic_search, found_indices, searchLoop, deptReject, hsc, hsc0]
  rw [hres]
  simp

/-- C6 (amended): for every positive `topK` `k` (a `topK` of `None` or `0`
falls back to the configured default), given the index search's contract —
distances non-negative and ascending, returned identifiers distinct — the
search returns at most `k` results, every returned score equals
`1 / (1 + d)` for that hit's distance `d` and lies in `(0, 1]`, and the
result list is non-increasing in score. -/
theorem C6_semantic_search_amended (ntotal : Nat) (hits : List (ℚ × Int))
    (docsById : Int → Option Doc) (k : Int) (department : Option String)
    (min_score : ℚ) (default_top_k : Int)
    (hk : 1 ≤ k)
    (hsorted : hits.Pairwise (fun p q => p.1 ≤ q.1))
    (hnn : ∀ p ∈ hits, 0 ≤ p.1)
    (hnd : (found_indices hits).Nodup) :
    ((semantic_search ntotal hits docsById (some k) department min_score
        default_top_k).length : Int) ≤ k ∧
    (∀ x ∈ semantic_search ntotal hits docsById (some k) department min_score
        default_top_k,
      ∃ p, p ∈ hits ∧ p.2 = x.index ∧ x.score = 1 / (1 + p.1) ∧
        0 < x.score ∧ x.score ≤ 1) ∧
    (semantic_search ntotal hits docsById (some k) department min_score
        default_top_k).Pairwise (fun a b => b.score ≤ a.score) := by
  have hk0 : k ≠ 0 := by omega
  by_cases h0 : ntotal = 0
  · have hres : semantic_search ntotal hits docsById (some k) department
        min_score default_top_k = [] := by simp [semantic_search, h0]
    rw [hres]
    refine ⟨?_, by simp, by simp⟩
    simp only [List.length_nil, Nat.cast_zero]
    omega
  · by_cases hf : (found_indices hits).isEmpty
    · have hres : semantic_search ntotal hits docsById (some k) department
          min_score default_top_k = [] := by simp [semantic_search, h0, hf]
      rw [hres]
      refine ⟨?_, by simp, by simp⟩
      simp only [List.length_nil, Nat.cast_zero]
      omega
    · have hres : semantic_search ntotal hits docsById (some k) department
          min_score default_top_k =
          searchLoop docsById department min_score k hits (found_indices hits) 0 := by
        simp [semantic_search, h0, hf, hk0]
      rw [hres]
      refine ⟨?_, ?_, ?_⟩
      · have hlen := searchLoop_length docsById department min_score k hits
          (found_indices hits) 0 (by simp; omega)
        simpa using hlen
      · intro x hx
        obtain ⟨hmem, hscore⟩ := searchLoop_mem docsById department min_score k
          hits (found_indices hits) 0 x hx
        obtain ⟨p, hp, hpidx, hmap⟩ := score_map_found hits x.index hmem
        have hd0 : 0 ≤ p.1 := hnn p hp
        refine ⟨p, hp, hpidx, by rw [hscore, hmap], ?_, ?_⟩
        · rw [hscore, hmap]
          exact div_pos one_pos (by linarith)
        · rw [hscore, hmap]
          rw [div_le_one (by linarith)]
          linarith
      · exact searchLoop_pairwise docsById department min_score k hits
          (found_indices hits) 0
          (found_indices_pairwise hits hsorted hnn hnd)

/-- C6 witness: the amended theorem applied to a two-hit index result with
equal zero distances, distinct identifiers, a one-row document table and
`topK = 1`. -/
theorem C6_semantic_search_amended_witness :
    (1 ≤ (1 : Int)) ∧
    ([((0 : ℚ), (0 : Int)), ((0 : ℚ), (1 : Int))].Pairwise
        (fun p q => p.1 ≤ q.1)) ∧
    (∀ p ∈ [((0 : ℚ), (0 : Int)), ((0 : ℚ), (1 : Int))], 0 ≤ p.1) ∧
    ((found_indices [((0 : ℚ), (0 : Int)), ((0 : ℚ), (1 : Int))]).Nodup) ∧
    (((semantic_search 2 [((0 : ℚ), (0 : Int)), ((0 : ℚ), (1 : Int))]
        (fun _ => some c6doc) (some 1) none 0 5).length : Int) ≤ 1 ∧
    (∀ x ∈ semantic_search 2 [((0 : ℚ), (0 : Int)), ((0 : ℚ), (1 : Int))]
        (fun _ => some c6doc) (some 1) none 0 5,
      ∃ p, p ∈ [((0 : ℚ), (0 : Int)), ((0 : ℚ), (1 : Int))] ∧ p.2 = x.index ∧
        x.score = 1 / (1 + p.1) ∧ 0 < x.score ∧ x.score ≤ 1) ∧
    (semantic_search 2 [((0 : ℚ), (0 : Int)), ((0 : ℚ), (1 : Int))]
        (fun _ => some c6doc) (some 1) none 0 5).Pairwise
      (fun a b => b.score ≤ a.score)) := by
  refine ⟨by norm_num, ?_, ?_, ?_, ?_⟩
  · simp [List.pairwise_cons]
  · simp
  · simp [found_indices]
  · exact C6_semantic_search_amended 2 [((0 : ℚ), (0 : Int)), ((0 : ℚ), (1 : Int))]
      (fun _ => some c6doc) 1 none 0 5 (by norm_num)
      (by simp [List.pairwise_cons]) (by simp) (by simp [found_indices])

/-- Optional strings deserialize back to themselves. -/
theorem decodeOptStr_encodeOptStr (r : Option String) :
    decodeOptStr (encodeOptStr r) = some r := by
  cases r <;> rfl

/-- Message objects deserialize back to themselves. -/
theorem decodeMsgEntries_encode (m : List (String × String)) :
    decodeMsgEntries (m.map (fun kv => (kv.1, Json.str kv.2))) = some m := by
  induction m with
  | nil => rfl
  | cons kv rest ih =>
    obtain ⟨k, v⟩ := kv
    simp [decodeMsgEntries, ih]

/-- Messages deserialize back to themselves. -/
theorem decodeMsg_encodeMsg (m : List (String × String)) :
    decodeMsg (encodeMsg m) = some m := by
  simp [decodeMsg, encodeMsg, decodeMsgEntries_encode]

/-- Arrays of losslessly-serialized elements deserialize back to
themselves. -/
theorem decodeList_encode (f : Json → Option α) (g : α → Json)
    (hfg : ∀ x, f (g x) = some x) (l : List α) :
    decodeList f (l.map g) = some l := by
  induction l with
  | nil => rfl
  | cons a rest ih => simp [decodeList, hfg a, ih]

/-- Tool executions deserialize back to themselves. -/
theorem decodeTool_encodeTool (t : ToolExecution) :
    decodeTool (encodeTool t) = some t := by
  cases t with
  | mk tn sc r e ms => cases r <;> cases e <;> rfl

/-- Source references deserialize back to themselves. -/
theorem decodeSource_encodeSource (s : SourceReference) :
    decodeSource (encodeSource s) = some s := by
  cases s with
  | mk t cs st u rs => cases u <;> rfl

/-- The serialization round-trip of the conversation context is
lossless. -/
theorem decodeCtx_encodeCtx (c : ConversationContext) :
    decodeCtx (encodeCtx c) = some c := by
  cases c with
  | mk cid ms ts ss =>
    simp only [encodeCtx, decodeCtx]
    rw [decodeList_encode decodeMsg encodeMsg decodeMsg_encodeMsg,
      decodeList_encode decodeTool encodeTool decodeTool_encodeTool,
      decodeList_encode decodeSource encodeSource decodeSource_encodeSource]

/-- C9: `set(id, ctx)` followed by `get(id)` returns a value deep-equal to
`ctx` (with the durable store's TTL expiry outside the model), for both
the durable-store and in-memory-only configurations; and a stored value
that fails to validate makes `get` return `None` instead of raising. -/
theorem C9_storage_roundtrip (s : StorageState) (id : String)
    (ctx : ConversationContext) (j : Json) (hbad : decodeCtx j = none) :
    storage_get (storage_set s id ctx) id = some ctx ∧
    storage_get ⟨false, s.redis, (id, j) :: s.mem⟩ id = none := by
  constructor
  · by_cases hr : s.redisEnabled
    · simp [storage_set, storage_get, hr, List.lookup, decodeCtx_encodeCtx]
    · simp [storage_set, storage_get, hr, List.lookup, decodeCtx_encodeCtx]
  · simp [storage_get, List.lookup, hbad]

/-- C9 witness: the round-trip at a concrete empty store, the context with
id "c1" and one user message, and the non-validating payload
`Json.str "garbage"`. -/
theorem C9_storage_roundtrip_witness :
    decodeCtx (Json.str "garbage") = none ∧
    (storage_get (storage_set ⟨false, [], []⟩ "c1"
        ⟨"c1", [[("role", "user"), ("content", "hi")]], [], []⟩) "c1" =
      some ⟨"c1", [[("role", "user"), ("content", "hi")]], [], []⟩ ∧
    storage_get ⟨false, [], [("c1", Json.str "garbage")]⟩ "c1" = none) :=
  ⟨rfl, C9_storage_roundtrip ⟨false, [], []⟩ "c1"
    ⟨"c1", [[("role", "user"), ("content", "hi")]], [], []⟩
    (Json.str "garbage") rfl⟩

/-- C4: for every prompt and token budget, a raised provider error makes
`_call_llm` return the fixed degraded-answer template embedding the error
detail — for either configured provider — and a provider success returns
the provider's answer text; the function is total (never raises). -/
theorem C4_call_llm_never_raises (st : Settings) (env : LLMEnv)
    (prompt : String) (mt : Option Nat) :
    (st.ai_provider = "anthropic" → ∀ e, env.anthropicResult = Except.error e →
      call_llm st env prompt mt = degraded_answer e) ∧
    (st.ai_provider ≠ "anthropic" → ∀ e, env.openaiResult = Except.error e →
      call_llm st env prompt mt = degraded_answer e) ∧
    (st.ai_provider = "anthropic" → ∀ b rest,
      env.anthropicResult = Except.ok (b :: rest) →
      call_llm st env prompt mt = b) ∧
    (st.ai_provider ≠ "anthropic" → ∀ s rest,
      env.openaiResult = Except.ok (some s :: rest) →
      call_llm st env prompt mt = s) := by
  refine ⟨?_, ?_, ?_, ?_⟩
  · intro hp e he; simp [call_llm, hp, he]
  · intro hp e he; simp [call_llm, hp, he]
  · intro hp b rest hb; simp [call_llm, hp, hb]
  · intro hp s rest hb; simp [call_llm, hp, hb]

/-- C4 witness: the theorem applied to the anthropic configuration with a
raised rate-limit error. -/
theorem C4_call_llm_never_raises_witness :
    ((⟨"anthropic", "gpt-4", "claude-3-sonnet", 2000, 5⟩ : Settings).ai_provider
        = "anthropic") ∧
    call_llm ⟨"anthropic", "gpt-4", "claude-3-sonnet", 2000, 5⟩
        ⟨Except.error "rate limited", Except.ok []⟩ "p" none =
      degraded_answer "rate limited" :=
  ⟨rfl, (C4_call_llm_never_raises ⟨"anthropic", "gpt-4", "claude-3-sonnet", 2000, 5⟩
    ⟨Except.error "rate limited", Except.ok []⟩ "p" none).1 rfl "rate limited" rfl⟩

/-- C5: an HTTP-level tool failure (network, timeout, remote error status)
makes `call_tool` return the structured dict with `success = false`, a
non-null error message and the measured elapsed milliseconds rather than
raising; and the orchestrator's wrapper converts both that dict and any
other raised exception into a failed `ToolExecution`, so a single tool
failure never aborts the query. -/
theorem C5_call_tool_failure_contained (tool_name e : String) (elapsed : ℚ)
    (tool : Tool) (query : String) (user : PyUser) (role : String)
    (env : OrchEnv) :
    call_tool tool_name (TransportOutcome.httpError e) elapsed =
      Except.ok ⟨some false, some tool_name, none,
        some ("Tool call failed: " ++ e), some elapsed⟩ ∧
    (env.transport tool.name (prepare_tool_params tool.name query user) =
        TransportOutcome.httpError e →
      execute_tool_safe tool query user role env =
        ⟨tool.name, false, none, some ("Tool call failed: " ++ e),
          env.elapsed tool.name⟩) ∧
    (∀ m, env.transport tool.name (prepare_tool_params tool.name query user) =
        TransportOutcome.badJson m →
      execute_tool_safe tool query user role env =
        ⟨tool.name, false, none, some m, 0⟩) := by
  refine ⟨rfl, ?_, ?_⟩
  · intro h; simp [execute_tool_safe, h, call_tool]
  · intro m h; simp [execute_tool_safe, h, call_tool]

/-- C5 witness: the theorem applied to a registry transport that times
out on `search_documents`. -/
theorem C5_call_tool_failure_contained_witness :
    c5env.transport "search_documents"
        (prepare_tool_params "search_documents" "q" c3user) =
      TransportOutcome.httpError "timeout" ∧
    execute_tool_safe ⟨"search_documents", "d"⟩ "q" c3user "employee" c5env =
      ⟨"search_documents", false, none,
        some ("Tool call failed: " ++ "timeout"), 123⟩ :=
  ⟨rfl, by
    have h := (C5_call_tool_failure_contained "search_documents" "timeout" 123
      ⟨"search_documents", "d"⟩ "q" c3user "employee" c5env).2.1 rfl
    exact h⟩

/-- C3 (code bug): at a default request (`include_sources = true`) with a
healthy LLM provider and a successful empty tool discovery, `handle_query`
raises `TypeError` instead of returning a response, because
`rag_service.semantic_search(...)` is called without `await` and the
resulting coroutine object is sliced with `[:3]`. -/
theorem C3_handle_query_raises :
    (handle_query c3st c3env c3user c3req []).1 =
      Except.error "TypeError: coroutine object is not subscriptable" := rfl

/-- C8 counterexample: a fully handled query (sources not requested; the
run returns a response) makes no `ConversationStorage.set` invocation —
the claimed persistence through the Conversation Store does not happen. -/
theorem C8_counterexample :
    (handle_query c3st c3env c3user c8req []).2.2 = [] ∧
    (handle_query c3st c3env c3user c8req []).1.isOk = true :=
  ⟨rfl, rfl⟩

/-- C8 (amended): each handled query appends exactly two messages — the
user message then the assistant answer — and this turn's `ToolExecution`
records to the `ConversationContext`, which is kept (also when the
sources step raises) in the orchestrator's module-level in-process dict;
the Conversation Store's `set` operation is never invoked. -/
theorem C8_conversation_update_amended (st : Settings) (env : OrchEnv)
    (user : PyUser) (req : ChatRequest)
    (conversations : List (String × ConversationContext)) :
    (handle_query st env user req conversations).2.1.lookup
        (get_or_create_conversation req.conversation_id env.freshId
          conversations).1.conversation_id =
      some ⟨(get_or_create_conversation req.conversation_id env.freshId
            conversations).1.conversation_id,
        (get_or_create_conversation req.conversation_id env.freshId
            conversations).1.messages ++
          [[("role", "user"), ("content", req.query)],
           [("role", "assistant"),
            ("content", turn_answer st env user req
              (get_or_create_conversation req.conversation_id env.freshId
                conversations).1)]],
        (get_or_create_conversation req.conversation_id env.freshId
            conversations).1.tools_used ++
          run_turn_tools env user (user.role.getD "employee") req.query
            (discover_tools env.discovery),
        (get_or_create_conversation req.conversation_id env.freshId
            conversations).1.sources⟩ ∧
    (handle_query st env user req conversations).2.2 = [] := by
  by_cases hs : req.include_sources <;>
    simp [handle_query, hs, pySlice, List.lookup]
